import Mathlib

/-!
Verification of the simulated-trading core of the repository against its
natural-language specification.

The embedding below translates, into Lean over exact rational arithmetic,
the parts of the source that the checked claims are about:

* `backtesting/portfolio_manager.py` — the portfolio ledger
  (`PortfolioManager._execute_buy`, `_execute_sell`, `execute_trade`);
* `strategies/improved/buy_low_sell_high.py` — the combined-signal scorer
  (`_generate_combined_signals`), the strategy-level position sizer
  (`calculate_position_size`) and the market-filter gate in `get_signal`;
* `live_trading/risk_manager.py` — the risk manager (`check_portfolio_risk`
  and its sub-checks, `apply_market_filter`, `adapt_to_market_conditions`,
  `update_capital`, `reset_emergency_stop`);
* `utils/position_manager.py` — the risk-based position sizer
  (`PositionManager.calculate_position_size`, `calculate_kelly_fraction`);
* `config.py` — the constants those modules read.

Python floats are embedded as `ℚ` (exact arithmetic), Python ints as `ℤ`.
Python dicts keyed by symbol are embedded as association lists with
Python's update-in-place / append-on-new-key semantics.  Log calls,
message strings of alerts and wall-clock timestamps (`datetime.now()`)
carry no ledger or control-flow information and are dropped.
-/

namespace AiTrade

/-- Side of an order, from `OrderType` in `portfolio_manager.py`. -/
inductive OrderType
  | BUY
  | SELL
  | HOLD
deriving DecidableEq, Repr

/-- A timestamp as the ledger consumes it: the only observation the ledger
makes of a `datetime` is `.date()` (stored as a position's entry date), so a
timestamp is embedded as its date, an abstract day number. -/
structure DateTime where
  date : Int
deriving DecidableEq, Repr

/-- `Position` from `portfolio_manager.py`: one held instrument. -/
structure Position where
  symbol : String
  quantity : Int
  avg_price : ℚ
  current_price : ℚ
  entry_date : Int
  unrealized_pnl : ℚ := 0
  realized_pnl : ℚ := 0
deriving DecidableEq, Repr

/-- `Trade` from `portfolio_manager.py`: one appended trade record. -/
structure Trade where
  symbol : String
  order_type : OrderType
  quantity : Int
  price : ℚ
  timestamp : DateTime
  commission : ℚ := 0
  pnl : ℚ := 0
deriving DecidableEq, Repr

/-- The mutable state of `PortfolioManager`: cash, open positions, the
append-only trade log, and the running trade statistics.  The daily
valuation snapshots (`daily_values`, `portfolio_history`) are not touched
by buy/sell and are omitted. -/
structure PortfolioManager where
  initial_capital : ℚ
  cash : ℚ
  positions : List (String × Position)
  trades : List Trade
  total_commission : ℚ
  total_trades : Int
  winning_trades : Int
  losing_trades : Int
deriving DecidableEq, Repr

/-- `PortfolioManager.__init__`: all-cash state with empty logs. -/
def initPM (initial_capital : ℚ) : PortfolioManager :=
  { initial_capital := initial_capital
    cash := initial_capital
    positions := []
    trades := []
    total_commission := 0
    total_trades := 0
    winning_trades := 0
    losing_trades := 0 }

/-- Dict lookup `self.positions.get(symbol)` / `symbol in self.positions`. -/
def getPos : List (String × Position) → String → Option Position
  | [], _ => none
  | (k, v) :: rest, sym => if k = sym then some v else getPos rest sym

/-- Dict write `self.positions[symbol] = pos`: update in place when the key
exists, append at the end otherwise (Python dict insertion order). -/
def setPos : List (String × Position) → String → Position → List (String × Position)
  | [], sym, p => [(sym, p)]
  | (k, v) :: rest, sym, p =>
      if k = sym then (k, p) :: rest else (k, v) :: setPos rest sym p

/-- Dict delete `del self.positions[symbol]`. -/
def delPos : List (String × Position) → String → List (String × Position)
  | [], _ => []
  | (k, v) :: rest, sym =>
      if k = sym then rest else (k, v) :: delPos rest sym

/-- `PortfolioManager._execute_buy`, as delivered through `execute_trade`:
returns the success flag together with the state after the call.

Faithful to the source: the only rejection test is `self.cash < total_cost`
— there is no `quantity <= 0` check.  One corner is inherited from the
`try/except` wrapper in `execute_trade`: when the symbol is already held
and `pos.quantity + quantity == 0`, the weighted-average division raises
`ZeroDivisionError` before any field is assigned, the wrapper catches it
and returns `False` with the state untouched; that branch is spelled out
here because `ℚ` division cannot raise. -/
def executeBuy (s : PortfolioManager) (symbol : String) (quantity : Int)
    (price : ℚ) (timestamp : DateTime) (commission : ℚ) :
    Bool × PortfolioManager :=
  let total_cost : ℚ := (quantity : ℚ) * price + commission
  if s.cash < total_cost then (false, s)
  else
    match getPos s.positions symbol with
    | some pos =>
        if pos.quantity + quantity = 0 then (false, s)
        else
          let total_quantity := pos.quantity + quantity
          let total_cost_basis :=
            pos.avg_price * (pos.quantity : ℚ) + price * (quantity : ℚ)
          let pos' := { pos with
            avg_price := total_cost_basis / (total_quantity : ℚ)
            quantity := total_quantity }
          let trade : Trade :=
            { symbol := symbol
              order_type := .BUY
              quantity := quantity
              price := price
              timestamp := timestamp
              commission := commission }
          (true, { s with
            positions := setPos s.positions symbol pos'
            cash := s.cash - total_cost
            trades := s.trades ++ [trade]
            total_commission := s.total_commission + commission
            total_trades := s.total_trades + 1 })
    | none =>
        let pos' : Position :=
          { symbol := symbol
            quantity := quantity
            avg_price := price
            current_price := price
            entry_date := timestamp.date }
        let trade : Trade :=
          { symbol := symbol
            order_type := .BUY
            quantity := quantity
            price := price
            timestamp := timestamp
            commission := commission }
        (true, { s with
          positions := setPos s.positions symbol pos'
          cash := s.cash - total_cost
          trades := s.trades ++ [trade]
          total_commission := s.total_commission + commission
          total_trades := s.total_trades + 1 })

/-- `PortfolioManager._execute_sell`: fails when the symbol is not held or
the held quantity is smaller than the requested quantity; otherwise books
realized PnL, decrements or removes the position, credits cash and appends
a `SELL` trade record. -/
def executeSell (s : PortfolioManager) (symbol : String) (quantity : Int)
    (price : ℚ) (timestamp : DateTime) (commission : ℚ) :
    Bool × PortfolioManager :=
  match getPos s.positions symbol with
  | none => (false, s)
  | some pos =>
      if pos.quantity < quantity then (false, s)
      else
        let pnl := (price - pos.avg_price) * (quantity : ℚ) - commission
        let positions' :=
          if pos.quantity = quantity then delPos s.positions symbol
          else setPos s.positions symbol { pos with
            quantity := pos.quantity - quantity
            realized_pnl := pos.realized_pnl + pnl }
        let trade : Trade :=
          { symbol := symbol
            order_type := .SELL
            quantity := quantity
            price := price
            timestamp := timestamp
            commission := commission
            pnl := pnl }
        (true, { s with
          positions := positions'
          cash := s.cash + ((quantity : ℚ) * price - commission)
          trades := s.trades ++ [trade]
          total_commission := s.total_commission + commission
          total_trades := s.total_trades + 1
          winning_trades :=
            if pnl > 0 then s.winning_trades + 1 else s.winning_trades
          losing_trades :=
            if pnl > 0 then s.losing_trades else s.losing_trades + 1 })

/-- `PortfolioManager.execute_trade`: dispatch on the order side; `HOLD`
does nothing and reports success. -/
def executeTrade (s : PortfolioManager) (symbol : String)
    (order_type : OrderType) (quantity : Int) (price : ℚ)
    (timestamp : DateTime) (commission : ℚ) : Bool × PortfolioManager :=
  match order_type with
  | .BUY => executeBuy s symbol quantity price timestamp commission
  | .SELL => executeSell s symbol quantity price timestamp commission
  | .HOLD => (true, s)

/-- One requested ledger operation: the arguments of a single
`execute_trade` call with a `BUY` or `SELL` side. -/
inductive Op
  | buy (symbol : String) (quantity : Int) (price : ℚ)
      (timestamp : DateTime) (commission : ℚ)
  | sell (symbol : String) (quantity : Int) (price : ℚ)
      (timestamp : DateTime) (commission : ℚ)
deriving DecidableEq, Repr

/-- Apply one operation through `execute_trade`, keeping only the state
(the success flag is recoverable from whether the trade log grew). -/
def applyOp (s : PortfolioManager) : Op → PortfolioManager
  | .buy symbol quantity price timestamp commission =>
      (executeTrade s symbol .BUY quantity price timestamp commission).2
  | .sell symbol quantity price timestamp commission =>
      (executeTrade s symbol .SELL quantity price timestamp commission).2

/-- Run a sequence of `execute_trade` calls left to right. -/
def runOps (s : PortfolioManager) : List Op → PortfolioManager
  | [] => s
  | op :: rest => runOps (applyOp s op) rest

/-- Cost of a recorded buy: `quantity * price + commission`. -/
def buyCost (t : Trade) : ℚ := (t.quantity : ℚ) * t.price + t.commission

/-- Proceeds of a recorded sell: `quantity * price - commission`. -/
def sellProceeds (t : Trade) : ℚ := (t.quantity : ℚ) * t.price - t.commission

/-- Sum of `quantity * price + commission` over the recorded buys of a
trade log. -/
def sumBuyCost (ts : List Trade) : ℚ :=
  ((ts.filter fun t => t.order_type = OrderType.BUY).map buyCost).sum

/-- Sum of `quantity * price - commission` over the recorded sells of a
trade log. -/
def sumSellProceeds (ts : List Trade) : ℚ :=
  ((ts.filter fun t => t.order_type = OrderType.SELL).map sellProceeds).sum

/-- The quantity of the ledger that every `execute_trade` call conserves:
cash plus recorded buy outflows minus recorded sell inflows. -/
def ledgerBalance (s : PortfolioManager) : ℚ :=
  s.cash + sumBuyCost s.trades - sumSellProceeds s.trades

/-- A sell operation whose commission does not exceed its gross proceeds
`quantity * price`; buys are unrestricted. -/
def sellCovered : Op → Prop
  | .buy _ _ _ _ _ => True
  | .sell _ quantity price _ commission => commission ≤ (quantity : ℚ) * price

instance : DecidablePred sellCovered := by
  intro op
  cases op with
  | buy symbol quantity price timestamp commission =>
      exact Decidable.isTrue trivial
  | sell symbol quantity price timestamp commission =>
      exact inferInstanceAs (Decidable (commission ≤ (quantity : ℚ) * price))

/-! ## The combined-signal scorer

`ImprovedBuyLowSellHighStrategy._generate_combined_signals` builds the
`SIGNAL` column of the feature frame row-wise: the column is initialised to
`0` (HOLD), then the rows with `BUY_SCORE >= 3.0` are assigned `1` (BUY),
and then — after it — the rows with `SELL_SCORE >= 2.5` are assigned `-1`
(SELL).  `combinedSignal` is that per-row computation, the two masked
assignments applied in source order. -/

/-- The `SIGNAL` value of one row: sequential masked assignment,
`BUY` mask first, `SELL` mask second. -/
def combinedSignal (buy_score sell_score : ℚ) : Int :=
  let signal : Int := 0
  let signal := if buy_score ≥ 3 then 1 else signal
  let signal := if sell_score ≥ 5 / 2 then -1 else signal
  signal

/-! ## Position sizers -/

/-- Python's `int()` applied to a float: truncation toward zero. -/
def pyInt (x : ℚ) : Int := if x < 0 then ⌈x⌉ else ⌊x⌋

/-- `PositionManager.calculate_kelly_fraction` with explicit win rate and
win/loss level: a quarter-Kelly fraction clamped to [1%, 20%].  The
parameterless call in `calculate_position_size` passes the constructor
defaults 0.35 and 2.0. -/
def calculateKellyFraction (win_rate avg_win_loss : ℚ) : ℚ :=
  let p := win_rate
  let b := avg_win_loss
  let q := 1 - p
  let kelly_fraction := (b * p - q) / b
  let conservative_kelly := kelly_fraction * (25 / 100)
  max (1 / 100) (min (1 / 5) conservative_kelly)

/-- `PositionManager.calculate_position_size` from `utils/position_manager.py`:
the Kelly-based value is intersected with the risk-based value, scaled by
the volatility and signal multipliers, capped at `max_position_size = 0.2`
of capital, converted to whole shares and floored at one share.  The
capital argument embeds `self.current_capital`. -/
def pmCalculatePositionSize (current_capital price stop_loss_pct
    volatility signal_strength : ℚ) : Int × ℚ :=
  let kelly_fraction := calculateKellyFraction (35 / 100) 2
  let base_position_value := current_capital * kelly_fraction
  let max_risk_per_trade := current_capital * (1 / 100)
  let position_value_risk_based := max_risk_per_trade / stop_loss_pct
  let volatility_multiplier := 1 / (1 + volatility * 10)
  let signal_multiplier := 1 / 2 + signal_strength * (1 / 2)
  let position_value :=
    (min base_position_value position_value_risk_based)
      * volatility_multiplier * signal_multiplier
  let max_position := current_capital * (1 / 5)
  let position_value := min position_value max_position
  let shares := pyInt (position_value / price)
  let shares := max 1 shares
  let actual_position_value := (shares : ℚ) * price
  (shares, actual_position_value)

/-- `ImprovedBuyLowSellHighStrategy.calculate_position_size`: base value
`capital * position_size_pct` with `position_size_pct = 0.1`, shrunk by
`1 / (1 + 10 * volatility)`, truncated to shares, clamped into
`[1, int(capital * 0.2 / price)]`.  The `pd.isna` guards concern float
NaN, which `ℚ` has no counterpart of; the `price <= 0` early return is
kept. -/
def stratCalculatePositionSize (capital price volatility : ℚ) : Int :=
  if price ≤ 0 then 0
  else
    let base_position_value := capital * (1 / 10)
    let volatility_adj := 1 / (1 + volatility * 10)
    let position_value := base_position_value * volatility_adj
    let shares := pyInt (position_value / price)
    let max_shares := if price > 0 then pyInt (capital * (1 / 5) / price) else 0
    max 1 (min shares max_shares)

/-! ## Risk manager

From `live_trading/risk_manager.py`, with the constants it reads from
`config.py`.  Alert messages and `datetime.now()` timestamps are dropped
from `RiskAlert`; the severity tier, optional symbol and the value /
threshold payload are kept. -/

/-- `RiskLevel` from `risk_manager.py`. -/
inductive RiskLevel
  | LOW
  | MEDIUM
  | HIGH
  | CRITICAL
deriving DecidableEq, Repr

/-- `RiskAlert` without its free-text message and wall-clock timestamp. -/
structure RiskAlert where
  level : RiskLevel
  symbol : Option String := none
  value : Option ℚ := none
  threshold : Option ℚ := none
deriving DecidableEq, Repr

/-- A market-filter snapshot `{allow_trading, position_size_multiplier,
reasons}` as produced by the market analyzer. -/
structure MarketFilter where
  allow_trading : Bool
  position_size_multiplier : ℚ
  reasons : List String
deriving DecidableEq, Repr

/-- A macro-environment snapshot as consumed by
`adapt_to_market_conditions`; the environment is the discrete category
string, matched literally by the source. -/
structure MacroEnv where
  environment : String
  position_multiplier : ℚ
deriving DecidableEq, Repr

/-- `config.py`: `INITIAL_CAPITAL = 10000`. -/
def INITIAL_CAPITAL : ℚ := 10000

/-- `config.py`: `MAX_POSITION_SIZE = 0.2`. -/
def MAX_POSITION_SIZE : ℚ := 1 / 5

/-- `config.py`: `MIN_POSITION_SIZE = 0.01`. -/
def MIN_POSITION_SIZE : ℚ := 1 / 100

/-- `config.py`: `STOP_LOSS_PCT = 0.03`. -/
def STOP_LOSS_PCT : ℚ := 3 / 100

/-- `config.py`: `TAKE_PROFIT_PCT = 0.05`. -/
def TAKE_PROFIT_PCT : ℚ := 1 / 20

/-- `config.py`: `MAX_DAILY_LOSS = 0.02`, documented there as the daily
maximum loss of 2 percent. -/
def MAX_DAILY_LOSS : ℚ := 1 / 50

/-- The mutable state of `RiskManager` that its operations read or write.
The diagnostic alert history (`risk_alerts`, only appended by
`log_risk_alerts` and counted in `get_risk_summary`) and the unused
`daily_pnl_history` / `position_risks` fields are omitted. -/
structure RiskManager where
  initial_capital : ℚ
  current_capital : ℚ
  base_max_position_size : ℚ
  base_stop_loss_pct : ℚ
  base_take_profit_pct : ℚ
  base_max_daily_loss : ℚ
  max_position_size : ℚ
  max_daily_loss : ℚ
  stop_loss_pct : ℚ
  take_profit_pct : ℚ
  emergency_stop : Bool
  market_filter_state : MarketFilter
  market_blocked : Bool
deriving DecidableEq, Repr

/-- `RiskManager.__init__`. -/
def initRM (initial_capital : ℚ := INITIAL_CAPITAL) : RiskManager :=
  { initial_capital := initial_capital
    current_capital := initial_capital
    base_max_position_size := MAX_POSITION_SIZE
    base_stop_loss_pct := STOP_LOSS_PCT
    base_take_profit_pct := TAKE_PROFIT_PCT
    base_max_daily_loss := MAX_DAILY_LOSS
    max_position_size := MAX_POSITION_SIZE
    max_daily_loss := MAX_DAILY_LOSS
    stop_loss_pct := STOP_LOSS_PCT
    take_profit_pct := TAKE_PROFIT_PCT
    emergency_stop := false
    market_filter_state :=
      { allow_trading := true, position_size_multiplier := 1, reasons := [] }
    market_blocked := false }

/-- Price lookup `current_prices.get(symbol, default)`. -/
def lookupPrice : List (String × ℚ) → String → Option ℚ
  | [], _ => none
  | (k, v) :: rest, sym => if k = sym then some v else lookupPrice rest sym

/-- `RiskManager._check_total_portfolio_risk`: aggregate loss from initial
capital, tiered at strictly more than 20% (CRITICAL, sets the emergency
stop), 15% (HIGH) and 10% (MEDIUM). -/
def checkTotalPortfolioRisk (rm : RiskManager) (portfolio_value : ℚ) :
    List RiskAlert × RiskManager :=
  let total_loss_pct := (rm.initial_capital - portfolio_value) / rm.initial_capital
  if total_loss_pct > 20 / 100 then
    ([{ level := .CRITICAL, value := some total_loss_pct, threshold := some (20 / 100) }],
      { rm with emergency_stop := true })
  else if total_loss_pct > 15 / 100 then
    ([{ level := .HIGH, value := some total_loss_pct, threshold := some (15 / 100) }], rm)
  else if total_loss_pct > 10 / 100 then
    ([{ level := .MEDIUM, value := some total_loss_pct, threshold := some (10 / 100) }], rm)
  else ([], rm)

/-- The alerts `RiskManager._check_position_risks` emits for one held
position: stop-loss (HIGH), take-profit (LOW) and oversize (MEDIUM). -/
def positionAlerts (rm : RiskManager) (prices : List (String × ℚ))
    (kv : String × Position) : List RiskAlert :=
  let symbol := kv.1
  let position := kv.2
  let current_price := (lookupPrice prices symbol).getD position.current_price
  let loss_pct := (position.avg_price - current_price) / position.avg_price
  let a1 : List RiskAlert :=
    if loss_pct > rm.stop_loss_pct then
      [{ level := .HIGH, symbol := some symbol, value := some loss_pct,
         threshold := some rm.stop_loss_pct }]
    else []
  let profit_pct := (current_price - position.avg_price) / position.avg_price
  let a2 : List RiskAlert :=
    if profit_pct > rm.take_profit_pct then
      [{ level := .LOW, symbol := some symbol, value := some profit_pct,
         threshold := some rm.take_profit_pct }]
    else []
  let position_value := current_price * (position.quantity : ℚ)
  let position_frac := position_value / rm.current_capital
  let a3 : List RiskAlert :=
    if position_frac > rm.max_position_size then
      [{ level := .MEDIUM, symbol := some symbol, value := some position_frac,
         threshold := some rm.max_position_size }]
    else []
  a1 ++ a2 ++ a3

/-- `RiskManager._check_position_risks` over all held positions. -/
def checkPositionRisks (rm : RiskManager)
    (positions : List (String × Position)) (prices : List (String × ℚ)) :
    List RiskAlert :=
  positions.flatMap (positionAlerts rm prices)

/-- `RiskManager._calculate_daily_loss`: the dollar loss from initial
capital, floored at zero (the source's own comment marks it a simplistic
implementation). -/
def calculateDailyLoss (rm : RiskManager) (current_value : ℚ) : ℚ :=
  max 0 (rm.initial_capital - current_value)

/-- `RiskManager._check_daily_loss_risk`: compares the dollar daily loss
against `self.max_daily_loss` (CRITICAL, sets the emergency stop) and
against 80% of it (HIGH). -/
def checkDailyLossRisk (rm : RiskManager) (portfolio_value : ℚ) :
    List RiskAlert × RiskManager :=
  let daily_loss := calculateDailyLoss rm portfolio_value
  if daily_loss > rm.max_daily_loss then
    ([{ level := .CRITICAL, value := some daily_loss,
        threshold := some rm.max_daily_loss }],
      { rm with emergency_stop := true })
  else if daily_loss > rm.max_daily_loss * (8 / 10) then
    ([{ level := .HIGH, value := some daily_loss,
        threshold := some (rm.max_daily_loss * (8 / 10)) }], rm)
  else ([], rm)

/-- The scan inside `_check_concentration_risk`: the largest position
weight (by the position's marked price) and its symbol. -/
def maxConcentration (positions : List (String × Position))
    (portfolio_value : ℚ) : ℚ × Option String :=
  positions.foldl
    (fun acc kv =>
      let frac := kv.2.current_price * (kv.2.quantity : ℚ) / portfolio_value
      if frac > acc.1 then (frac, some kv.1) else acc)
    (0, none)

/-- `RiskManager._check_concentration_risk`: tiers the largest position
weight at strictly more than 30% (HIGH) and 20% (MEDIUM). -/
def checkConcentrationRisk (positions : List (String × Position))
    (portfolio_value : ℚ) : List RiskAlert :=
  if positions.isEmpty then []
  else
    let m := maxConcentration positions portfolio_value
    if m.1 > 3 / 10 then
      [{ level := .HIGH, symbol := m.2, value := some m.1, threshold := some (3 / 10) }]
    else if m.1 > 2 / 10 then
      [{ level := .MEDIUM, symbol := m.2, value := some m.1, threshold := some (2 / 10) }]
    else []

/-- `RiskManager._check_volatility_risk`: a MEDIUM alert per position whose
price moved more than 10% from its average cost. -/
def checkVolatilityRisk (positions : List (String × Position))
    (prices : List (String × ℚ)) : List RiskAlert :=
  positions.flatMap fun kv =>
    let current_price := (lookupPrice prices kv.1).getD kv.2.current_price
    let daily_change := |current_price - kv.2.avg_price| / kv.2.avg_price
    if daily_change > 1 / 10 then
      [{ level := .MEDIUM, symbol := some kv.1, value := some daily_change,
         threshold := some (1 / 10) }]
    else []

/-- `RiskManager.check_portfolio_risk`: the five sub-checks in source
order, the alerts concatenated, the state updated by the total-risk and
daily-loss checks (the only ones that write `self.emergency_stop`). -/
def checkPortfolioRisk (rm : RiskManager) (portfolio_value : ℚ)
    (positions : List (String × Position)) (prices : List (String × ℚ)) :
    List RiskAlert × RiskManager :=
  let r1 := checkTotalPortfolioRisk rm portfolio_value
  let a2 := checkPositionRisks r1.2 positions prices
  let r3 := checkDailyLossRisk r1.2 portfolio_value
  let a4 := checkConcentrationRisk positions portfolio_value
  let a5 := checkVolatilityRisk positions prices
  (r1.1 ++ a2 ++ r3.1 ++ a4 ++ a5, r3.2)

/-- `RiskManager.apply_market_filter`: rescale the effective position-size
and daily-loss limits by the filter multiplier, clamped to the base limit
above and `MIN_POSITION_SIZE` (resp. half the base daily loss) below, and
record whether trading is blocked.  `none` embeds a missing or empty
filter dict, on which the source returns without touching anything. -/
def applyMarketFilter (rm : RiskManager) (filter_signal : Option MarketFilter) :
    RiskManager :=
  match filter_signal with
  | none => rm
  | some f =>
      let multiplier := max f.position_size_multiplier 0
      let adjusted_position_size := rm.base_max_position_size * multiplier
      let adjusted_position_size := min adjusted_position_size rm.base_max_position_size
      let adjusted_position_size := max adjusted_position_size MIN_POSITION_SIZE
      { rm with
        market_filter_state := f
        market_blocked := !f.allow_trading
        max_position_size := adjusted_position_size
        max_daily_loss :=
          max (rm.base_max_daily_loss * multiplier) (rm.base_max_daily_loss * (1 / 2)) }

/-- `RiskManager.adapt_to_market_conditions`: block on a disallowing
filter; otherwise pick the limit preset for the macro environment string
(unknown strings fall to the NEUTRAL branch) and combine the position
limit with the filter multiplier; with no macro data only the filter
multiplier is applied. -/
def adaptToMarketConditions (rm : RiskManager)
    (market_filter : Option MarketFilter) (macro_env : Option MacroEnv) :
    RiskManager :=
  match market_filter with
  | none => rm
  | some f =>
      let rm := { rm with market_filter_state := f }
      if !f.allow_trading then { rm with market_blocked := true }
      else
        let rm := { rm with market_blocked := false }
        let filter_multiplier := f.position_size_multiplier
        match macro_env with
        | some m =>
            let rm :=
              if m.environment = "VERY_UNFAVORABLE" then
                { rm with
                  max_position_size := rm.base_max_position_size * (3 / 10)
                  stop_loss_pct := rm.base_stop_loss_pct * (7 / 10)
                  max_daily_loss := rm.base_max_daily_loss * (1 / 2) }
              else if m.environment = "UNFAVORABLE" then
                { rm with
                  max_position_size := rm.base_max_position_size * (1 / 2)
                  stop_loss_pct := rm.base_stop_loss_pct * (85 / 100) }
              else if m.environment = "VERY_FAVORABLE" then
                { rm with
                  max_position_size := rm.base_max_position_size * (13 / 10)
                  take_profit_pct := rm.base_take_profit_pct * (3 / 2) }
              else if m.environment = "FAVORABLE" then
                { rm with
                  max_position_size := rm.base_max_position_size * (11 / 10)
                  take_profit_pct := rm.base_take_profit_pct * (12 / 10) }
              else
                { rm with
                  max_position_size := rm.base_max_position_size
                  stop_loss_pct := rm.base_stop_loss_pct
                  take_profit_pct := rm.base_take_profit_pct
                  max_daily_loss := rm.base_max_daily_loss }
            { rm with max_position_size := rm.max_position_size * filter_multiplier }
        | none =>
            { rm with
              max_position_size := rm.base_max_position_size * filter_multiplier }

/-- `RiskManager.update_capital`. -/
def updateCapital (rm : RiskManager) (new_capital : ℚ) : RiskManager :=
  { rm with current_capital := new_capital }

/-- `RiskManager.reset_emergency_stop`: the one write of `False` to the
flag anywhere in the class. -/
def resetEmergencyStop (rm : RiskManager) : RiskManager :=
  { rm with emergency_stop := false }

/-- `RiskManager.should_stop_trading`. -/
def shouldStopTrading (rm : RiskManager) : Bool := rm.emergency_stop

/-- `RiskManager.allows_trading`. -/
def allowsTrading (rm : RiskManager) : Bool :=
  !rm.market_blocked && !rm.emergency_stop

/-- One state-mutating `RiskManager` call (the remaining public methods —
`should_stop_trading`, `allows_trading`, `get_risk_summary`,
`calculate_position_size`, `log_risk_alerts` — never write the fields
modelled here). -/
inductive RMOp
  | check (portfolio_value : ℚ) (positions : List (String × Position))
      (prices : List (String × ℚ))
  | applyFilter (filter_signal : Option MarketFilter)
  | adapt (market_filter : Option MarketFilter) (macro_env : Option MacroEnv)
  | setCapital (new_capital : ℚ)
  | reset
deriving DecidableEq

/-- Apply one `RiskManager` call to the risk state. -/
def rmStep (rm : RiskManager) : RMOp → RiskManager
  | .check portfolio_value positions prices =>
      (checkPortfolioRisk rm portfolio_value positions prices).2
  | .applyFilter filter_signal => applyMarketFilter rm filter_signal
  | .adapt market_filter macro_env =>
      adaptToMarketConditions rm market_filter macro_env
  | .setCapital new_capital => updateCapital rm new_capital
  | .reset => resetEmergencyStop rm

/-! ## The market-filter gate of `get_signal`

`ImprovedBuyLowSellHighStrategy.get_signal` returns, in order: the
"No data" HOLD when the frame is empty; the market-filter HOLD carrying the
filter's joined reasons when the (supplied or freshly fetched) filter
disallows trading; and otherwise the result of the prediction / constraint
/ scoring path.  That remainder consults the trained classifier and the
strategy's position book — external collaborators here — so the embedding
takes it as an arbitrary result `classifier_path`, and takes the filter the
market analyzer would return as `fetched_filter`; the gating claims
quantify over both. -/

/-- The signal dict `get_signal` returns; branches that do not set a key
leave the corresponding option `none`. -/
structure SignalResult where
  symbol : Option String := none
  signal : String
  confidence : ℚ
  reason : String
  market_filter : Option MarketFilter := none
deriving DecidableEq, Repr

/-- Python's `", ".join(reasons)`. -/
def joinComma : List String → String
  | [] => ""
  | [r] => r
  | r :: rest => r ++ ", " ++ joinComma rest

/-- The blocked-filter message: the joined reasons, or the fixed fallback
text when the reason list is empty. -/
def filterMessage (reasons : List String) : String :=
  if reasons.isEmpty then "시장 필터 차단" else joinComma reasons

/-- The gating prefix of `get_signal` (lines 414–435). -/
def getSignal {Row : Type} (data : List Row) (symbol : String)
    (market_filter : Option MarketFilter) (fetched_filter : MarketFilter)
    (classifier_path : SignalResult) : SignalResult :=
  if data.isEmpty then
    { signal := "HOLD", confidence := 0, reason := "No data" }
  else
    let mf := market_filter.getD fetched_filter
    if !mf.allow_trading then
      { symbol := some symbol
        signal := "HOLD"
        confidence := 0
        reason := filterMessage mf.reasons
        market_filter := some mf }
    else classifier_path

/-- One buy order of a same-symbol buy sequence: quantity, price,
commission. -/
structure BuyOrder where
  quantity : Int
  price : ℚ
  commission : ℚ
deriving DecidableEq, Repr

/-- Run a sequence of `_execute_buy` calls for one symbol, requiring every
call to succeed (`none` as soon as one returns false). -/
def runBuys (symbol : String) (timestamp : DateTime) :
    PortfolioManager → List BuyOrder → Option PortfolioManager
  | s, [] => some s
  | s, b :: rest =>
      let r := executeBuy s symbol b.quantity b.price timestamp b.commission
      if r.1 then runBuys symbol timestamp r.2 rest else none

/-- Σ qᵢ of a buy sequence, in ℚ. -/
def sumQty (l : List BuyOrder) : ℚ := (l.map fun b => (b.quantity : ℚ)).sum

/-- Σ qᵢ·pᵢ of a buy sequence. -/
def sumCost (l : List BuyOrder) : ℚ :=
  (l.map fun b => (b.quantity : ℚ) * b.price).sum

/-! ## Concrete inputs used by witnesses and counterexamples -/

/-- A ledger holding five shares of "A" at an average cost of 10. -/
def posC1 : Position :=
  { symbol := "A", quantity := 5, avg_price := 10, current_price := 10,
    entry_date := 0 }

def sC1 : PortfolioManager :=
  { initial_capital := 1000, cash := 950, positions := [("A", posC1)],
    trades := [], total_commission := 0, total_trades := 1,
    winning_trades := 0, losing_trades := 0 }

/-- A ledger holding five shares of "B", for the partial-sell witness. -/
def posC10 : Position :=
  { symbol := "B", quantity := 5, avg_price := 20, current_price := 20,
    entry_date := 3 }

def sC10 : PortfolioManager :=
  { initial_capital := 1000, cash := 900, positions := [("B", posC10)],
    trades := [], total_commission := 0, total_trades := 1,
    winning_trades := 0, losing_trades := 0 }

/-- Scenario A's operations: buy 10 @ $100, later sell all 10 @ $110. -/
def opsScenA : List Op :=
  [Op.buy "AAPL" 10 100 ⟨0⟩ 0, Op.sell "AAPL" 10 110 ⟨1⟩ 0]

/-- The two-buy sequence 2 @ 10 then 3 @ 20 and its reversal. -/
def buysW : List BuyOrder := [⟨2, 10, 0⟩, ⟨3, 20, 0⟩]

def buysW' : List BuyOrder := [⟨3, 20, 0⟩, ⟨2, 10, 0⟩]

/-- The ledger after `buysW` from $10,000: 5 shares at average cost 16. -/
def posW : Position :=
  { symbol := "A", quantity := 5, avg_price := 16, current_price := 10,
    entry_date := 0 }

def posW' : Position :=
  { symbol := "A", quantity := 5, avg_price := 16, current_price := 20,
    entry_date := 0 }

def tradeW1 : Trade :=
  { symbol := "A", order_type := .BUY, quantity := 2, price := 10,
    timestamp := ⟨0⟩, commission := 0 }

def tradeW2 : Trade :=
  { symbol := "A", order_type := .BUY, quantity := 3, price := 20,
    timestamp := ⟨0⟩, commission := 0 }

def sW : PortfolioManager :=
  { initial_capital := 10000, cash := 9920, positions := [("A", posW)],
    trades := [tradeW1, tradeW2], total_commission := 0, total_trades := 2,
    winning_trades := 0, losing_trades := 0 }

def sW' : PortfolioManager :=
  { initial_capital := 10000, cash := 9920, positions := [("A", posW')],
    trades := [tradeW2, tradeW1], total_commission := 0, total_trades := 2,
    winning_trades := 0, losing_trades := 0 }

/-- A risk manager whose emergency stop has been tripped. -/
def rmStop : RiskManager := { initRM 10000 with emergency_stop := true }

/-- A blocking market-filter snapshot with two reasons. -/
def mfBlocked : MarketFilter :=
  { allow_trading := false, position_size_multiplier := 1 / 2,
    reasons := ["VIX 35 초과", "하락 추세"] }

/-- A stand-in for the prediction path: a high-confidence BUY. -/
def buyPath : SignalResult :=
  { symbol := some "AAPL", signal := "BUY", confidence := 9 / 10,
    reason := "scores" }

/-! ## Helper lemmas on the position dictionary -/

theorem getPos_setPos (ps : List (String × Position)) (sym : String) (p : Position) :
    getPos (setPos ps sym p) sym = some p := by
  induction ps with
  | nil => simp [setPos, getPos]
  | cons kv rest ih =>
      by_cases h : kv.1 = sym
      · simp [setPos, getPos, h]
      · simp [setPos, getPos, h, ih]

/-! ## C1 — oversized sells -/

/-- C1, counterexample.  The claim says a sell of 10 units against a held
quantity of 5 succeeds by clamping to 5, removing the position and
crediting cash.  On the code it returns `False` and leaves the ledger —
position, cash, trade log — exactly as it was. -/
theorem c1_counterexample :
    (0 : Int) < 5 ∧ (5 : Int) < 10
    ∧ executeSell sC1 "A" 10 20 ⟨1⟩ 0 = (false, sC1) := by
  refine ⟨by decide, by decide, ?_⟩
  rfl

/-- C1, amended: a sell whose quantity exceeds the held quantity does not
clamp — it fails, returning `false` with the whole ledger state unchanged
(so in particular the held quantity never becomes negative and no trade
record is appended). -/
theorem c1_oversell_fails (s : PortfolioManager) (sym : String) (q : Int)
    (price : ℚ) (ts : DateTime) (comm : ℚ) (pos : Position)
    (hpos : getPos s.positions sym = some pos)
    (hheld : 0 < pos.quantity) (hover : pos.quantity < q) :
    executeSell s sym q price ts comm = (false, s) := by
  unfold executeSell
  rw [hpos]
  simp [hover]

/-- C1, witness: the amended statement at the concrete five-share ledger. -/
theorem c1_witness :
    getPos sC1.positions "A" = some posC1 ∧ 0 < posC1.quantity
    ∧ posC1.quantity < 8
    ∧ executeSell sC1 "A" 8 20 ⟨1⟩ 0 = (false, sC1) :=
  ⟨rfl, by decide, by decide,
    c1_oversell_fails sC1 "A" 8 20 ⟨1⟩ 0 posC1 rfl (by decide) (by decide)⟩

/-! ## C2 — buy failure condition -/

/-- C2, counterexample.  The claim says a buy with `qty ≤ 0` returns false
with no state change.  The code has no quantity check: with $10,000 cash a
buy of 0 shares at $50 returns `True` and mutates the ledger (a trade
record is appended and a zero-quantity position is created). -/
theorem c2_counterexample :
    (executeBuy (initPM 10000) "AAPL" 0 50 ⟨0⟩ 0).1 = true
    ∧ (executeBuy (initPM 10000) "AAPL" 0 50 ⟨0⟩ 0).2.trades.length = 1
    ∧ getPos (executeBuy (initPM 10000) "AAPL" 0 50 ⟨0⟩ 0).2.positions "AAPL"
        ≠ none := by
  refine ⟨?_, ?_, ?_⟩
  · norm_num [executeBuy, initPM, getPos, setPos]
  · norm_num [executeBuy, initPM, getPos, setPos]
  · simp [executeBuy, initPM, getPos, setPos]

/-- C2, amended: apart from the degenerate corner in which the symbol is
already held and the held quantity plus `qty` is exactly zero (where the
weighted-average division raises and the wrapper also returns false), a
buy fails if and only if `cash < qty*price + commission` — there is no
`qty ≤ 0` rejection — and whenever it fails the entire ledger state is
unchanged.  In particular the Scenario C buy (1,000 @ $50 on $10,000)
fails with no state change. -/
theorem c2_buy_failure_iff (s : PortfolioManager) (sym : String) (q : Int)
    (price : ℚ) (ts : DateTime) (comm : ℚ)
    (hcorner : ∀ pos, getPos s.positions sym = some pos → pos.quantity + q ≠ 0) :
    ((executeBuy s sym q price ts comm).1 = false
      ↔ s.cash < (q : ℚ) * price + comm)
    ∧ ((executeBuy s sym q price ts comm).1 = false
      → (executeBuy s sym q price ts comm).2 = s) := by
  unfold executeBuy
  by_cases hc : s.cash < (q : ℚ) * price + comm
  · simp [hc]
  · cases hg : getPos s.positions sym with
    | none => simp [hc, hg]
    | some pos => simp [hc, hg, hcorner pos hg]

/-- C2, witness: Scenario C — buying 1,000 shares at $50 with $10,000 cash
fails and leaves the fresh ledger untouched. -/
theorem c2_witness :
    (10000 : ℚ) < ((1000 : Int) : ℚ) * 50 + 0
    ∧ (executeBuy (initPM 10000) "AAPL" 1000 50 ⟨0⟩ 0).1 = false
    ∧ (executeBuy (initPM 10000) "AAPL" 1000 50 ⟨0⟩ 0).2 = initPM 10000 := by
  have hcorner : ∀ pos, getPos (initPM 10000).positions "AAPL" = some pos
      → pos.quantity + 1000 ≠ 0 := by
    intro pos h
    simp [initPM, getPos] at h
  have h := c2_buy_failure_iff (initPM 10000) "AAPL" 1000 50 ⟨0⟩ 0 hcorner
  have hlt : (initPM 10000).cash < ((1000 : Int) : ℚ) * 50 + 0 := by
    norm_num [initPM]
  exact ⟨by norm_num, h.1.mpr hlt, h.2 (h.1.mpr hlt)⟩

/-! ## C5 — the combined-signal tie-break -/

/-- C5, counterexample.  The claim says a row meeting both thresholds
(BUY_SCORE ≥ 3.0 and SELL_SCORE ≥ 2.5) resolves to BUY (`SIGNAL = 1`).
On the code the SELL mask is assigned after the BUY mask, so such a row
ends at `SIGNAL = -1` (SELL), not `1`. -/
theorem c5_counterexample :
    (3 : ℚ) ≥ 3 ∧ (5 / 2 : ℚ) ≥ 5 / 2
    ∧ combinedSignal 3 (5 / 2) = -1 ∧ combinedSignal 3 (5 / 2) ≠ 1 := by
  refine ⟨le_refl _, le_refl _, ?_, ?_⟩ <;> norm_num [combinedSignal]

/-- C5, amended: a bar crossing both thresholds resolves to SELL — the
SELL assignment (`SELL_SCORE >= 2.5 → SIGNAL = -1`) is applied after the
BUY assignment and overwrites it. -/
theorem c5_sell_overwrites_buy (buy_score sell_score : ℚ)
    (hb : buy_score ≥ 3) (hs : sell_score ≥ 5 / 2) :
    combinedSignal buy_score sell_score = -1 := by
  simp [combinedSignal, hs]

/-- C5, witness: a row with BUY_SCORE 4 and SELL_SCORE 3 is SELL. -/
theorem c5_witness :
    (4 : ℚ) ≥ 3 ∧ (3 : ℚ) ≥ 5 / 2 ∧ combinedSignal 4 3 = -1 :=
  ⟨by norm_num, by norm_num,
    c5_sell_overwrites_buy 4 3 (by norm_num) (by norm_num)⟩

/-! ## C10 — the partial-sell frame -/

/-- C10: a partial sell (0 < sold quantity < held quantity) succeeds and
rewrites the position to exactly the old one with the quantity decremented
and the realized PnL accrued — its average cost, entry date, symbol,
marked price and unrealized PnL are untouched, so the cost basis of the
remaining shares is what it was. -/
theorem c10_partial_sell_frame (s : PortfolioManager) (sym : String)
    (q : Int) (price : ℚ) (ts : DateTime) (comm : ℚ) (pos : Position)
    (hpos : getPos s.positions sym = some pos)
    (hq : 0 < q) (hlt : q < pos.quantity) :
    (executeSell s sym q price ts comm).1 = true
    ∧ ∃ pos',
        getPos (executeSell s sym q price ts comm).2.positions sym = some pos'
        ∧ pos'.quantity = pos.quantity - q
        ∧ pos'.realized_pnl
            = pos.realized_pnl + ((price - pos.avg_price) * (q : ℚ) - comm)
        ∧ pos'.avg_price = pos.avg_price
        ∧ pos'.entry_date = pos.entry_date
        ∧ pos'.symbol = pos.symbol
        ∧ pos'.current_price = pos.current_price
        ∧ pos'.unrealized_pnl = pos.unrealized_pnl := by
  have hnlt : ¬ pos.quantity < q := not_lt.mpr (le_of_lt hlt)
  have hne : ¬ pos.quantity = q := by
    intro h
    exact absurd h (ne_of_gt hlt)
  constructor
  · unfold executeSell
    rw [hpos]
    simp [hnlt]
  · refine ⟨{ pos with
        quantity := pos.quantity - q
        realized_pnl := pos.realized_pnl + ((price - pos.avg_price) * (q : ℚ) - comm) },
      ?_, rfl, rfl, rfl, rfl, rfl, rfl, rfl⟩
    unfold executeSell
    rw [hpos]
    simp only [hnlt, if_false, hne, if_neg hne]
    exact getPos_setPos s.positions sym _

/-- C10, witness: selling 2 of 5 held shares of "B" (average cost 20) at
price 30 leaves a 3-share position with the same average cost and entry
date and realized PnL increased by 20. -/
theorem c10_witness :
    getPos sC10.positions "B" = some posC10 ∧ (0 : Int) < 2
    ∧ (2 : Int) < posC10.quantity
    ∧ ((executeSell sC10 "B" 2 30 ⟨4⟩ 0).1 = true
       ∧ ∃ pos',
          getPos (executeSell sC10 "B" 2 30 ⟨4⟩ 0).2.positions "B" = some pos'
          ∧ pos'.quantity = posC10.quantity - 2
          ∧ pos'.realized_pnl
              = posC10.realized_pnl + ((30 - posC10.avg_price) * (2 : ℚ) - 0)
          ∧ pos'.avg_price = posC10.avg_price
          ∧ pos'.entry_date = posC10.entry_date
          ∧ pos'.symbol = posC10.symbol
          ∧ pos'.current_price = posC10.current_price
          ∧ pos'.unrealized_pnl = posC10.unrealized_pnl) :=
  ⟨rfl, by decide, by decide,
    c10_partial_sell_frame sC10 "B" 2 30 ⟨4⟩ 0 posC10 rfl (by decide) (by decide)⟩

/-! ## C3 — cash reconciliation and non-negativity -/

theorem sumBuyCost_append (a b : List Trade) :
    sumBuyCost (a ++ b) = sumBuyCost a + sumBuyCost b := by
  simp [sumBuyCost, List.filter_append]

theorem sumSellProceeds_append (a b : List Trade) :
    sumSellProceeds (a ++ b) = sumSellProceeds a + sumSellProceeds b := by
  simp [sumSellProceeds, List.filter_append]

/-- Every single `execute_trade` call — successful or failed, buy or sell —
conserves cash plus recorded buy outflows minus recorded sell inflows. -/
theorem ledgerBalance_applyOp (s : PortfolioManager) (op : Op) :
    ledgerBalance (applyOp s op) = ledgerBalance s := by
  cases op with
  | buy symbol quantity price timestamp commission =>
      show ledgerBalance (executeBuy s symbol quantity price timestamp commission).2
        = ledgerBalance s
      unfold executeBuy
      dsimp only
      cases hg : getPos s.positions symbol <;> dsimp only <;> split_ifs <;>
        first
          | rfl
          | (unfold ledgerBalance
             dsimp only
             rw [sumBuyCost_append, sumSellProceeds_append]
             simp [sumBuyCost, sumSellProceeds, buyCost]
             try ring)
  | sell symbol quantity price timestamp commission =>
      show ledgerBalance (executeSell s symbol quantity price timestamp commission).2
        = ledgerBalance s
      unfold executeSell
      cases hg : getPos s.positions symbol <;> dsimp only <;> try split_ifs
      all_goals
        first
          | rfl
          | (unfold ledgerBalance
             dsimp only
             rw [sumBuyCost_append, sumSellProceeds_append]
             simp [sumBuyCost, sumSellProceeds, sellProceeds]
             try ring)

theorem ledgerBalance_runOps (s : PortfolioManager) (l : List Op) :
    ledgerBalance (runOps s l) = ledgerBalance s := by
  induction l generalizing s with
  | nil => rfl
  | cons op rest ih => exact (ih (applyOp s op)).trans (ledgerBalance_applyOp s op)

/-- One covered `execute_trade` call keeps cash non-negative: a successful
buy was affordability-checked, a covered sell adds a non-negative net
amount, and failures change nothing. -/
theorem cash_nonneg_applyOp (s : PortfolioManager) (op : Op)
    (h0 : 0 ≤ s.cash) (hc : sellCovered op) : 0 ≤ (applyOp s op).cash := by
  cases op with
  | buy symbol quantity price timestamp commission =>
      show 0 ≤ (executeBuy s symbol quantity price timestamp commission).2.cash
      unfold executeBuy
      dsimp only
      cases hg : getPos s.positions symbol <;> dsimp only <;> split_ifs <;>
        (try dsimp only) <;> first | exact h0 | linarith
  | sell symbol quantity price timestamp commission =>
      show 0 ≤ (executeSell s symbol quantity price timestamp commission).2.cash
      have hcomm : commission ≤ (quantity : ℚ) * price := hc
      unfold executeSell
      cases hg : getPos s.positions symbol <;> dsimp only <;> try split_ifs
      all_goals try dsimp only
      all_goals first | exact h0 | linarith

theorem cash_nonneg_runOps (s : PortfolioManager) (l : List Op)
    (h0 : 0 ≤ s.cash) (hc : ∀ op ∈ l, sellCovered op) :
    0 ≤ (runOps s l).cash := by
  induction l generalizing s with
  | nil => exact h0
  | cons op rest ih =>
      exact ih (applyOp s op)
        (cash_nonneg_applyOp s op h0 (hc op (List.mem_cons_self op rest)))
        (fun o ho => hc o (List.mem_cons_of_mem op ho))

/-- C3, amended: across any sequence of `execute_trade` calls from initial
capital C, final cash equals C minus the buy costs plus the sell proceeds
recorded in the trade log — unconditionally; the log records exactly the
successful operations, so failed operations contribute nothing.  And,
provided C ≥ 0 and every sell's commission does not exceed its gross
proceeds `qty*price`, cash is non-negative after every prefix of the
sequence.  (Without that proviso a successful sell whose commission
exceeds its proceeds can drive cash negative, which the counterexample
exhibits.) -/
theorem c3_cash_conservation (C : ℚ) (l : List Op) :
    ((runOps (initPM C) l).cash
      = C - sumBuyCost (runOps (initPM C) l).trades
          + sumSellProceeds (runOps (initPM C) l).trades)
    ∧ (0 ≤ C → (∀ op ∈ l, sellCovered op) →
        ∀ l₁ l₂, l = l₁ ++ l₂ → 0 ≤ (runOps (initPM C) l₁).cash) := by
  constructor
  · have h := ledgerBalance_runOps (initPM C) l
    have h0 : ledgerBalance (initPM C) = C := by
      simp [ledgerBalance, initPM, sumBuyCost, sumSellProceeds]
    rw [h0] at h
    unfold ledgerBalance at h
    linarith
  · intro hC hcov l₁ l₂ hsplit
    refine cash_nonneg_runOps (initPM C) l₁ (by simpa [initPM] using hC) ?_
    intro op hop
    refine hcov op ?_
    rw [hsplit]
    exact List.mem_append_left l₂ hop

/-- C3, counterexample.  The claim says cash never becomes negative across
any sequence of successful operations.  From capital 10: a buy of 1 share
at 10 (cost 10, succeeds, cash 0) followed by a sell of that share at
price 1 with commission 5 (succeeds — the quantity is held) leaves cash
at 0 + (1·1 − 5) = −4 < 0. -/
theorem c3_counterexample :
    (runOps (initPM 10) [Op.buy "A" 1 10 ⟨0⟩ 0, Op.sell "A" 1 1 ⟨0⟩ 5]).cash = -4
    ∧ (-4 : ℚ) < 0 := by
  constructor
  · norm_num [runOps, applyOp, executeTrade, executeBuy, executeSell,
      initPM, getPos, setPos, delPos]
  · norm_num

/-- C3, witness: the amended statement at Scenario A, with the
non-negativity side conditions discharged there. -/
theorem c3_witness :
    ((runOps (initPM 10000) opsScenA).cash
        = 10000 - sumBuyCost (runOps (initPM 10000) opsScenA).trades
            + sumSellProceeds (runOps (initPM 10000) opsScenA).trades)
    ∧ (0 : ℚ) ≤ 10000 ∧ (∀ op ∈ opsScenA, sellCovered op)
    ∧ ∀ l₁ l₂, opsScenA = l₁ ++ l₂ → 0 ≤ (runOps (initPM 10000) l₁).cash := by
  have hcov : ∀ op ∈ opsScenA, sellCovered op := by
    intro op hop
    simp [opsScenA] at hop
    rcases hop with h | h <;> subst h <;> norm_num [sellCovered]
  have h := c3_cash_conservation 10000 opsScenA
  exact ⟨h.1, by norm_num, hcov, h.2 (by norm_num) hcov⟩

/-! ## C4 — weighted-average cost -/

/-- A successful buy into an existing position rewrites it with the summed
quantity and the weighted-average cost. -/
theorem executeBuy_some_success (s : PortfolioManager) (symbol : String)
    (q : Int) (price : ℚ) (ts : DateTime) (comm : ℚ) (pos : Position)
    (hpos : getPos s.positions symbol = some pos)
    (hflag : (executeBuy s symbol q price ts comm).1 = true) :
    getPos (executeBuy s symbol q price ts comm).2.positions symbol
      = some { pos with
          avg_price := (pos.avg_price * (pos.quantity : ℚ) + price * (q : ℚ))
              / ((pos.quantity + q : Int) : ℚ)
          quantity := pos.quantity + q } := by
  unfold executeBuy at hflag ⊢
  dsimp only at hflag ⊢
  by_cases h1 : s.cash < (q : ℚ) * price + comm
  · rw [if_pos h1] at hflag
    simp at hflag
  · rw [if_neg h1] at hflag ⊢
    rw [hpos] at hflag ⊢
    dsimp only at hflag ⊢
    by_cases h2 : pos.quantity + q = 0
    · rw [if_pos h2] at hflag
      simp at hflag
    · rw [if_neg h2] at hflag ⊢
      exact getPos_setPos _ _ _

/-- A successful first buy creates the position at the buy price. -/
theorem executeBuy_none_success (s : PortfolioManager) (symbol : String)
    (q : Int) (price : ℚ) (ts : DateTime) (comm : ℚ)
    (hpos : getPos s.positions symbol = none)
    (hflag : (executeBuy s symbol q price ts comm).1 = true) :
    getPos (executeBuy s symbol q price ts comm).2.positions symbol
      = some { symbol := symbol, quantity := q, avg_price := price,
               current_price := price, entry_date := ts.date } := by
  unfold executeBuy at hflag ⊢
  dsimp only at hflag ⊢
  by_cases h1 : s.cash < (q : ℚ) * price + comm
  · rw [if_pos h1] at hflag
    simp at hflag
  · rw [if_neg h1] at hflag ⊢
    rw [hpos] at hflag ⊢
    exact getPos_setPos _ _ _

/-- Folding successful buys over an existing position accumulates quantity
and cost basis exactly. -/
theorem runBuys_existing (symbol : String) (ts : DateTime) (l : List BuyOrder) :
    ∀ (s s' : PortfolioManager) (pos : Position),
      getPos s.positions symbol = some pos → 0 < pos.quantity →
      (∀ b ∈ l, 0 < b.quantity) →
      runBuys symbol ts s l = some s' →
      ∃ pos', getPos s'.positions symbol = some pos'
        ∧ (pos'.quantity : ℚ) = (pos.quantity : ℚ) + sumQty l
        ∧ pos'.avg_price
            = (pos.avg_price * (pos.quantity : ℚ) + sumCost l)
                / ((pos.quantity : ℚ) + sumQty l) := by
  induction l with
  | nil =>
      intro s s' pos hpos hq _ hrun
      have hs : s = s' := by
        simpa [runBuys] using hrun
      subst hs
      have hQ : ((pos.quantity : ℚ)) ≠ 0 :=
        Int.cast_ne_zero.mpr (ne_of_gt hq)
      refine ⟨pos, hpos, by simp [sumQty], ?_⟩
      rw [sumQty, sumCost]
      simp [mul_div_cancel_right₀ _ hQ]
  | cons b rest ih =>
      intro s s' pos hpos hq hall hrun
      unfold runBuys at hrun
      dsimp only at hrun
      by_cases hflag :
          (executeBuy s symbol b.quantity b.price ts b.commission).1 = true
      case neg =>
        rw [if_neg hflag] at hrun
        simp at hrun
      rw [if_pos hflag] at hrun
      have hb : 0 < b.quantity := hall b (List.mem_cons_self b rest)
      have hpos1 := executeBuy_some_success s symbol b.quantity b.price ts
        b.commission pos hpos hflag
      have hq1 : 0 < pos.quantity + b.quantity := add_pos hq hb
      obtain ⟨pos', h1, h2, h3⟩ :=
        ih _ s' _ hpos1 hq1 (fun x hx => hall x (List.mem_cons_of_mem b hx)) hrun
      have hQq : ((pos.quantity : ℚ) + (b.quantity : ℚ)) ≠ 0 := by
        have : (0 : ℚ) < (pos.quantity : ℚ) + (b.quantity : ℚ) := by
          exact_mod_cast hq1
        exact ne_of_gt this
      refine ⟨pos', h1, ?_, ?_⟩
      · rw [h2]
        dsimp only
        push_cast
        simp [sumQty]
        ring
      · rw [h3]
        dsimp only
        have hQqc : ((pos.quantity + b.quantity : Int) : ℚ) ≠ 0 :=
          Int.cast_ne_zero.mpr (ne_of_gt hq1)
        rw [div_mul_cancel₀ _ hQqc]
        have hq' : sumQty (b :: rest) = (b.quantity : ℚ) + sumQty rest := by
          simp [sumQty]
        have hc' : sumCost (b :: rest)
            = (b.quantity : ℚ) * b.price + sumCost rest := by
          simp [sumCost]
        rw [hq', hc']
        push_cast
        congr 1 <;> ring

/-- Folding successful buys from no position yields the position with
total quantity Σqᵢ and average cost Σqᵢpᵢ / Σqᵢ. -/
theorem runBuys_fresh (symbol : String) (ts : DateTime) (b : BuyOrder)
    (rest : List BuyOrder) (s s' : PortfolioManager)
    (hnone : getPos s.positions symbol = none)
    (hall : ∀ x ∈ b :: rest, 0 < x.quantity)
    (hrun : runBuys symbol ts s (b :: rest) = some s') :
    ∃ pos', getPos s'.positions symbol = some pos'
      ∧ (pos'.quantity : ℚ) = sumQty (b :: rest)
      ∧ pos'.avg_price = sumCost (b :: rest) / sumQty (b :: rest) := by
  unfold runBuys at hrun
  dsimp only at hrun
  by_cases hflag :
      (executeBuy s symbol b.quantity b.price ts b.commission).1 = true
  case neg =>
    rw [if_neg hflag] at hrun
    simp at hrun
  rw [if_pos hflag] at hrun
  have hb : 0 < b.quantity := hall b (List.mem_cons_self b rest)
  have hpos1 := executeBuy_none_success s symbol b.quantity b.price ts
    b.commission hnone hflag
  obtain ⟨pos', h1, h2, h3⟩ :=
    runBuys_existing symbol ts rest _ s' _ hpos1 hb
      (fun x hx => hall x (List.mem_cons_of_mem b hx)) hrun
  refine ⟨pos', h1, ?_, ?_⟩
  · rw [h2]
    simp [sumQty]
  · rw [h3]
    dsimp only
    have hq' : sumQty (b :: rest) = (b.quantity : ℚ) + sumQty rest := by
      simp [sumQty]
    have hc' : sumCost (b :: rest)
        = (b.quantity : ℚ) * b.price + sumCost rest := by
      simp [sumCost]
    rw [hq', hc']
    congr 1
    ring

/-- C4: starting from an all-cash ledger, a sequence of successful buys of
one symbol with positive quantities leaves a position whose average cost
is Σ(qᵢpᵢ)/Σqᵢ, and any successful permutation of the same buys leaves the
same average cost. -/
theorem c4_weighted_average_cost (C : ℚ) (symbol : String) (ts : DateTime)
    (l l' : List BuyOrder) (s s' : PortfolioManager) (pos pos' : Position)
    (hall : ∀ b ∈ l, 0 < b.quantity)
    (hrun : runBuys symbol ts (initPM C) l = some s)
    (hpos : getPos s.positions symbol = some pos)
    (hperm : l'.Perm l)
    (hrun' : runBuys symbol ts (initPM C) l' = some s')
    (hpos' : getPos s'.positions symbol = some pos') :
    pos.avg_price = sumCost l / sumQty l
    ∧ pos'.avg_price = pos.avg_price := by
  have havg : ∀ (m : List BuyOrder) (t : PortfolioManager) (p : Position),
      (∀ b ∈ m, 0 < b.quantity) →
      runBuys symbol ts (initPM C) m = some t →
      getPos t.positions symbol = some p →
      p.avg_price = sumCost m / sumQty m := by
    intro m t p hm hrunm hposm
    cases m with
    | nil =>
        have ht : initPM C = t := by simpa [runBuys] using hrunm
        rw [← ht] at hposm
        simp [initPM, getPos] at hposm
    | cons b rest =>
        obtain ⟨p', h1, _, h3⟩ :=
          runBuys_fresh symbol ts b rest (initPM C) t (by simp [initPM, getPos])
            hm hrunm
        rw [hposm] at h1
        injection h1 with h1
        rw [← h1] at h3
        exact h3
  have h1 := havg l s pos hall hrun hpos
  have hall' : ∀ b ∈ l', 0 < b.quantity := fun b hb => hall b (hperm.subset hb)
  have h2 := havg l' s' pos' hall' hrun' hpos'
  have hcost : sumCost l' = sumCost l := by
    unfold sumCost
    exact (hperm.map fun b => (b.quantity : ℚ) * b.price).sum_eq
  have hqty : sumQty l' = sumQty l := by
    unfold sumQty
    exact (hperm.map fun b => (b.quantity : ℚ)).sum_eq
  exact ⟨h1, by rw [h2, hcost, hqty, h1]⟩

/-- C4, witness: buying 2 @ 10 then 3 @ 20 gives average cost
(2·10 + 3·20)/5 = 16, and the reversed order gives the same. -/
theorem c4_witness :
    (∀ b ∈ buysW, 0 < b.quantity)
    ∧ runBuys "A" ⟨0⟩ (initPM 10000) buysW = some sW
    ∧ getPos sW.positions "A" = some posW
    ∧ buysW'.Perm buysW
    ∧ runBuys "A" ⟨0⟩ (initPM 10000) buysW' = some sW'
    ∧ getPos sW'.positions "A" = some posW'
    ∧ (posW.avg_price = sumCost buysW / sumQty buysW
       ∧ posW'.avg_price = posW.avg_price) := by
  have hall : ∀ b ∈ buysW, 0 < b.quantity := by
    intro b hb
    simp [buysW] at hb
    rcases hb with h | h <;> simp [h]
  have hrun : runBuys "A" ⟨0⟩ (initPM 10000) buysW = some sW := by
    norm_num [runBuys, executeBuy, initPM, getPos, setPos, buysW, sW, posW,
      tradeW1, tradeW2]
  have hrun' : runBuys "A" ⟨0⟩ (initPM 10000) buysW' = some sW' := by
    norm_num [runBuys, executeBuy, initPM, getPos, setPos, buysW', sW', posW',
      tradeW1, tradeW2]
  have hperm : buysW'.Perm buysW := by
    simp [buysW, buysW']
    exact List.Perm.swap _ _ _
  refine ⟨hall, hrun, rfl, hperm, hrun', rfl, ?_⟩
  exact c4_weighted_average_cost 10000 "A" ⟨0⟩ buysW buysW' sW sW' posW posW'
    hall hrun rfl hperm hrun' rfl

/-! ## C9 — position-sizer monotonicity -/

theorem kelly_default_pos : 0 < calculateKellyFraction (35 / 100) 2 := by
  unfold calculateKellyFraction
  exact lt_max_of_lt_left (by norm_num)

/-- The share count of `PositionManager.calculate_position_size`, as one
expression (pure unfolding of the lets). -/
theorem pmShares_eq (c p st v s : ℚ) :
    (pmCalculatePositionSize c p st v s).1
      = max 1 (pyInt (min ((min (c * calculateKellyFraction (35 / 100) 2)
            (c * (1 / 100) / st)) * (1 / (1 + v * 10)) * (1 / 2 + s * (1 / 2)))
          (c * (1 / 5)) / p)) := rfl

theorem pyInt_of_nonneg (x : ℚ) (h : 0 ≤ x) : pyInt x = ⌊x⌋ := by
  simp [pyInt, not_lt.mpr h]

theorem pyInt_mono_nonneg (x y : ℚ) (hx : 0 ≤ x) (hxy : x ≤ y) :
    pyInt x ≤ pyInt y := by
  rw [pyInt_of_nonneg x hx, pyInt_of_nonneg y (hx.trans hxy)]
  exact Int.floor_mono hxy

/-- The risk-based sizer is antitone in volatility and monotone in signal
strength, jointly. -/
theorem pm_shares_mono (c p st vLo vHi sLo sHi : ℚ) (hc : 0 < c) (hp : 0 < p)
    (hst : 0 < st) (hvLo : 0 ≤ vLo) (hv : vLo ≤ vHi) (hsLo : 0 ≤ sLo)
    (hs : sLo ≤ sHi) :
    (pmCalculatePositionSize c p st vHi sLo).1
      ≤ (pmCalculatePositionSize c p st vLo sHi).1 := by
  rw [pmShares_eq, pmShares_eq]
  have hkf : 0 < calculateKellyFraction (35 / 100) 2 := kelly_default_pos
  have hK0 : 0 ≤ min (c * calculateKellyFraction (35 / 100) 2)
      (c * (1 / 100) / st) :=
    le_min (le_of_lt (mul_pos hc hkf))
      (le_of_lt (div_pos (mul_pos hc (by norm_num)) hst))
  have hm2 : (0 : ℚ) < 1 / (1 + vHi * 10) :=
    div_pos one_pos (by linarith)
  have hm1 : (0 : ℚ) < 1 / (1 + vLo * 10) :=
    div_pos one_pos (by linarith)
  have hmle : 1 / (1 + vHi * 10) ≤ 1 / (1 + vLo * 10) :=
    one_div_le_one_div_of_le (by linarith) (by linarith)
  have hg0 : (0 : ℚ) ≤ 1 / 2 + sLo * (1 / 2) := by linarith
  have hgle : 1 / 2 + sLo * (1 / 2) ≤ 1 / 2 + sHi * (1 / 2) := by linarith
  have hpv : min (c * calculateKellyFraction (35 / 100) 2) (c * (1 / 100) / st)
        * (1 / (1 + vHi * 10)) * (1 / 2 + sLo * (1 / 2))
      ≤ min (c * calculateKellyFraction (35 / 100) 2) (c * (1 / 100) / st)
        * (1 / (1 + vLo * 10)) * (1 / 2 + sHi * (1 / 2)) := by
    calc min (c * calculateKellyFraction (35 / 100) 2) (c * (1 / 100) / st)
          * (1 / (1 + vHi * 10)) * (1 / 2 + sLo * (1 / 2))
        ≤ min (c * calculateKellyFraction (35 / 100) 2) (c * (1 / 100) / st)
          * (1 / (1 + vLo * 10)) * (1 / 2 + sLo * (1 / 2)) :=
          mul_le_mul_of_nonneg_right (mul_le_mul_of_nonneg_left hmle hK0) hg0
      _ ≤ min (c * calculateKellyFraction (35 / 100) 2) (c * (1 / 100) / st)
          * (1 / (1 + vLo * 10)) * (1 / 2 + sHi * (1 / 2)) :=
          mul_le_mul_of_nonneg_left hgle (mul_nonneg hK0 (le_of_lt hm1))
  have hnn : 0 ≤ min (min (c * calculateKellyFraction (35 / 100) 2)
        (c * (1 / 100) / st) * (1 / (1 + vHi * 10)) * (1 / 2 + sLo * (1 / 2)))
      (c * (1 / 5)) :=
    le_min (mul_nonneg (mul_nonneg hK0 (le_of_lt hm2)) hg0)
      (le_of_lt (mul_pos hc (by norm_num)))
  have hmin := min_le_min hpv (le_refl (c * (1 / 5)))
  exact max_le_max (le_refl 1)
    (pyInt_mono_nonneg _ _ (div_nonneg hnn (le_of_lt hp))
      ((div_le_div_iff_of_pos_right hp).mpr hmin))

/-- The strategy sizer with a positive price, as one expression. -/
theorem stratShares_eq (c p v : ℚ) (hp : 0 < p) :
    stratCalculatePositionSize c p v
      = max 1 (min (pyInt (c * (1 / 10) * (1 / (1 + v * 10)) / p))
          (pyInt (c * (1 / 5) / p))) := by
  unfold stratCalculatePositionSize
  rw [if_neg (not_le.mpr hp)]
  dsimp only
  rw [if_pos hp]

/-- The strategy sizer is antitone in volatility. -/
theorem strat_shares_antitone (c p vLo vHi : ℚ) (hc : 0 < c) (hp : 0 < p)
    (hvLo : 0 ≤ vLo) (hv : vLo ≤ vHi) :
    stratCalculatePositionSize c p vHi ≤ stratCalculatePositionSize c p vLo := by
  rw [stratShares_eq c p vHi hp, stratShares_eq c p vLo hp]
  have hb0 : 0 ≤ c * (1 / 10) := le_of_lt (mul_pos hc (by norm_num))
  have hm2 : (0 : ℚ) < 1 / (1 + vHi * 10) := div_pos one_pos (by linarith)
  have hmle : 1 / (1 + vHi * 10) ≤ 1 / (1 + vLo * 10) :=
    one_div_le_one_div_of_le (by linarith) (by linarith)
  have hpv : c * (1 / 10) * (1 / (1 + vHi * 10))
      ≤ c * (1 / 10) * (1 / (1 + vLo * 10)) :=
    mul_le_mul_of_nonneg_left hmle hb0
  have hnn : 0 ≤ c * (1 / 10) * (1 / (1 + vHi * 10)) :=
    mul_nonneg hb0 (le_of_lt hm2)
  exact max_le_max (le_refl 1)
    (min_le_min
      (pyInt_mono_nonneg _ _ (div_nonneg hnn (le_of_lt hp))
        ((div_le_div_iff_of_pos_right hp).mpr hpv))
      (le_refl _))

/-- C9: for both position sizers — the risk-based
`PositionManager.calculate_position_size` and the strategy's
`calculate_position_size` — with everything else fixed, a strictly higher
volatility never yields a larger share count, and (for the risk-based
sizer, the one that takes a confidence input) a strictly higher signal
strength never yields a smaller share count, over capital > 0, price > 0,
stop-loss fraction > 0, volatility ≥ 0, signal strength in [0,1]. -/
theorem c9_sizer_monotone :
    (∀ capital price stop_loss_pct v₁ v₂ strength : ℚ,
        0 < capital → 0 < price → 0 < stop_loss_pct →
        0 ≤ v₁ → v₁ < v₂ → 0 ≤ strength → strength ≤ 1 →
        (pmCalculatePositionSize capital price stop_loss_pct v₂ strength).1
          ≤ (pmCalculatePositionSize capital price stop_loss_pct v₁ strength).1)
    ∧ (∀ capital price stop_loss_pct v s₁ s₂ : ℚ,
        0 < capital → 0 < price → 0 < stop_loss_pct →
        0 ≤ v → 0 ≤ s₁ → s₁ < s₂ → s₂ ≤ 1 →
        (pmCalculatePositionSize capital price stop_loss_pct v s₁).1
          ≤ (pmCalculatePositionSize capital price stop_loss_pct v s₂).1)
    ∧ (∀ capital price v₁ v₂ : ℚ,
        0 < capital → 0 < price → 0 ≤ v₁ → v₁ < v₂ →
        stratCalculatePositionSize capital price v₂
          ≤ stratCalculatePositionSize capital price v₁) := by
  refine ⟨?_, ?_, ?_⟩
  · intro capital price stop_loss_pct v₁ v₂ strength hc hp hst hv1 hv hs0 _
    exact pm_shares_mono capital price stop_loss_pct v₁ v₂ strength strength
      hc hp hst hv1 (le_of_lt hv) hs0 (le_refl strength)
  · intro capital price stop_loss_pct v s₁ s₂ hc hp hst hv hs1 hs _
    exact pm_shares_mono capital price stop_loss_pct v v s₁ s₂
      hc hp hst hv (le_refl v) hs1 (le_of_lt hs)
  · intro capital price v₁ v₂ hc hp hv1 hv
    exact strat_shares_antitone capital price v₁ v₂ hc hp hv1 (le_of_lt hv)

/-- C9, witness: at capital $10,000, price $50, stop-loss 3% — raising
volatility from 0 to 0.1 cannot raise either sizer's share count, and
raising strength from 0.5 to 1 cannot lower the risk-based count. -/
theorem c9_witness :
    (pmCalculatePositionSize 10000 50 (3 / 100) (1 / 10) 1).1
        ≤ (pmCalculatePositionSize 10000 50 (3 / 100) 0 1).1
    ∧ (pmCalculatePositionSize 10000 50 (3 / 100) 0 (1 / 2)).1
        ≤ (pmCalculatePositionSize 10000 50 (3 / 100) 0 1).1
    ∧ stratCalculatePositionSize 10000 50 (1 / 10)
        ≤ stratCalculatePositionSize 10000 50 0 := by
  refine ⟨?_, ?_, ?_⟩
  · exact c9_sizer_monotone.1 10000 50 (3 / 100) 0 (1 / 10) 1
      (by norm_num) (by norm_num) (by norm_num) (le_refl 0) (by norm_num)
      (by norm_num) (le_refl 1)
  · exact c9_sizer_monotone.2.1 10000 50 (3 / 100) 0 (1 / 2) 1
      (by norm_num) (by norm_num) (by norm_num) (le_refl 0) (by norm_num)
      (by norm_num) (le_refl 1)
  · exact c9_sizer_monotone.2.2 10000 50 0 (1 / 10)
      (by norm_num) (by norm_num) (le_refl 0) (by norm_num)

/-! ## C6 — the emergency stop is sticky -/

theorem checkTotalPortfolioRisk_keeps_stop (rm : RiskManager) (v : ℚ)
    (h : rm.emergency_stop = true) :
    (checkTotalPortfolioRisk rm v).2.emergency_stop = true := by
  unfold checkTotalPortfolioRisk
  dsimp only
  split_ifs <;> simp [h]

theorem checkDailyLossRisk_keeps_stop (rm : RiskManager) (v : ℚ)
    (h : rm.emergency_stop = true) :
    (checkDailyLossRisk rm v).2.emergency_stop = true := by
  unfold checkDailyLossRisk
  dsimp only
  split_ifs <;> simp [h]

theorem checkPortfolioRisk_keeps_stop (rm : RiskManager) (v : ℚ)
    (positions : List (String × Position)) (prices : List (String × ℚ))
    (h : rm.emergency_stop = true) :
    (checkPortfolioRisk rm v positions prices).2.emergency_stop = true := by
  show (checkDailyLossRisk (checkTotalPortfolioRisk rm v).2 v).2.emergency_stop = true
  exact checkDailyLossRisk_keeps_stop _ _ (checkTotalPortfolioRisk_keeps_stop _ _ h)

theorem applyMarketFilter_stop (rm : RiskManager) (f : Option MarketFilter) :
    (applyMarketFilter rm f).emergency_stop = rm.emergency_stop := by
  cases f <;> rfl

theorem adaptToMarketConditions_stop (rm : RiskManager)
    (f : Option MarketFilter) (m : Option MacroEnv) :
    (adaptToMarketConditions rm f m).emergency_stop = rm.emergency_stop := by
  unfold adaptToMarketConditions
  cases f with
  | none => rfl
  | some f =>
      cases m with
      | none => dsimp only; split_ifs <;> rfl
      | some m => dsimp only; split_ifs <;> rfl

/-- C6: once the emergency-stop flag is true, the only risk-manager call
after which it reads false is an explicit `reset_emergency_stop`; every
`check_portfolio_risk`, `apply_market_filter`, `adapt_to_market_conditions`
and `update_capital` call leaves it true, however favorable its arguments,
and the reset call does set it back to false. -/
theorem c6_emergency_stop_sticky (rm : RiskManager) (op : RMOp)
    (h : rm.emergency_stop = true) :
    ((rmStep rm op).emergency_stop = false ↔ op = RMOp.reset)
    ∧ (rmStep rm RMOp.reset).emergency_stop = false := by
  refine ⟨?_, rfl⟩
  cases op with
  | check v positions prices =>
      simp [rmStep, checkPortfolioRisk_keeps_stop rm v positions prices h]
  | applyFilter f => simp [rmStep, applyMarketFilter_stop, h]
  | adapt f m => simp [rmStep, adaptToMarketConditions_stop, h]
  | setCapital c => simp [rmStep, updateCapital, h]
  | reset => simp [rmStep, resetEmergencyStop]

/-- C6, witness: a stopped manager stays stopped across a fully healthy
`check_portfolio_risk` call, and the explicit reset clears it. -/
theorem c6_witness :
    rmStop.emergency_stop = true
    ∧ (((rmStep rmStop (RMOp.check 9999 [] [])).emergency_stop = false
          ↔ RMOp.check 9999 [] [] = RMOp.reset)
       ∧ (rmStep rmStop RMOp.reset).emergency_stop = false) :=
  ⟨rfl, c6_emergency_stop_sticky rmStop (RMOp.check 9999 [] []) rfl⟩

/-! ## C7 — the drawdown tiers and the daily-loss unit slip -/

/-- C7: the code evaluated at the failing input.  With the default initial
capital of $10,000 and a portfolio value of $8,900 — an 11% aggregate
loss, squarely in the claim's 10% tier — the claim says the call produces
a MEDIUM alert without setting the emergency stop.  The code does emit the
MEDIUM drawdown alert, but `_check_daily_loss_risk` compares the dollar
loss `max(0, 10000 - 8900) = 1100` against `MAX_DAILY_LOSS = 0.02` (a
fraction, documented in `config.py` as "2%"), so it also emits a CRITICAL
alert and sets the emergency stop. -/
theorem c7_daily_loss_unit_bug :
    ((10000 : ℚ) - 8900) / 10000 = 11 / 100
    ∧ (checkPortfolioRisk (initRM 10000) 8900 [] []).2.emergency_stop = true
    ∧ (checkPortfolioRisk (initRM 10000) 8900 [] []).1.map RiskAlert.level
        = [RiskLevel.MEDIUM, RiskLevel.CRITICAL] := by
  refine ⟨by norm_num, ?_, ?_⟩ <;>
    norm_num [checkPortfolioRisk, checkTotalPortfolioRisk, checkDailyLossRisk,
      checkPositionRisks, checkConcentrationRisk, checkVolatilityRisk,
      calculateDailyLoss, positionAlerts, initRM, INITIAL_CAPITAL,
      MAX_POSITION_SIZE, MIN_POSITION_SIZE, STOP_LOSS_PCT, TAKE_PROFIT_PCT,
      MAX_DAILY_LOSS, max_def]

/-! ## C8 — the market-filter gate of get_signal -/

/-- C8, counterexample.  The claim quantifies over every input data set:
on the empty frame with a blocking filter, `get_signal` still holds (and
trades nothing), but the returned signal carries the reason "No data" and
no filter echo — not the filter's reasons as the claim states. -/
theorem c8_counterexample :
    mfBlocked.allow_trading = false
    ∧ (getSignal ([] : List Unit) "AAPL" (some mfBlocked) mfBlocked buyPath).signal
        = "HOLD"
    ∧ (getSignal ([] : List Unit) "AAPL" (some mfBlocked) mfBlocked buyPath).reason
        = "No data"
    ∧ (getSignal ([] : List Unit) "AAPL" (some mfBlocked) mfBlocked buyPath).reason
        ≠ filterMessage mfBlocked.reasons
    ∧ (getSignal ([] : List Unit) "AAPL" (some mfBlocked) mfBlocked buyPath).market_filter
        = none := by
  refine ⟨rfl, rfl, rfl, ?_, rfl⟩
  decide

/-- C8, amended: for every non-empty input data set, if the supplied
market-filter snapshot disallows trading then `get_signal` short-circuits
to the HOLD signal carrying the filter's (joined) reasons and the filter
itself, whatever the prediction path would have produced — so no trade can
be executed from that signal.  (On the empty data set the result is the
"No data" HOLD instead.) -/
theorem c8_market_filter_gate {Row : Type} (data : List Row) (sym : String)
    (mf fetched : MarketFilter) (classifier_path : SignalResult)
    (hdata : data ≠ []) (hblock : mf.allow_trading = false) :
    getSignal data sym (some mf) fetched classifier_path
      = { symbol := some sym
          signal := "HOLD"
          confidence := 0
          reason := filterMessage mf.reasons
          market_filter := some mf } := by
  cases data with
  | nil => exact absurd rfl hdata
  | cons a l => simp [getSignal, hblock]

/-- C8, witness: on a one-row data set with the blocking two-reason
filter, the result is the filter HOLD, even though the prediction path
stands ready to report a high-confidence BUY. -/
theorem c8_witness :
    ([()] : List Unit) ≠ [] ∧ mfBlocked.allow_trading = false
    ∧ getSignal [()] "AAPL" (some mfBlocked) mfBlocked buyPath
        = { symbol := some "AAPL"
            signal := "HOLD"
            confidence := 0
            reason := filterMessage mfBlocked.reasons
            market_filter := some mfBlocked } :=
  ⟨by simp, rfl,
    c8_market_filter_gate [()] "AAPL" mfBlocked mfBlocked buyPath (by simp) rfl⟩

end AiTrade
